import Mathlib

/-!
Verification of the django-htmx-admin response-shaping layer.

This file gives a shallow embedding of the package's protocol code:

* `htmx_admin/mixins.py` — request classification and trigger-bearing responses;
* `htmx_admin/middleware.py` — the message-to-signal and redirect-to-signal
  response interceptors;
* `htmx_admin/admin.py` — the `HtmxModelAdmin` endpoint handlers
  (inline field edit, cell refetch, delete, modal create/edit);
* `htmx_admin/views.py` — the standalone `HtmxDeleteView`,
  `HtmxInlineEditView` and `HtmxModalView` endpoints.

Host-framework collaborators (the ORM, the form/validation engine, the
template engine, model `__str__`) are modelled at their interface boundary:
the record store is an explicit association list keyed by primary key, and
validation/rendering are parameters of the handlers.  The `json` module is
modelled by an executable serializer (`Json.dumps`) and parser (`loads`)
over a JSON value type; integers are modelled exactly, floating-point
literals are outside the model and are treated as parse failures, as are
`\u` escapes, neither of which occurs in any header this package produces.
-/

/-- JSON values as exchanged through the `HX-Trigger` header.  Objects are
association lists in insertion order, matching Python dict semantics. -/
inductive Json where
  | null
  | bool (b : Bool)
  | num (n : Int)
  | str (s : String)
  | arr (elems : List Json)
  | obj (fields : List (String × Json))

/-- The double-quote character. -/
def quoteChar : Char := Char.ofNat 34

/-- The backslash character. -/
def backslashChar : Char := Char.ofNat 92

/-- The opening-brace character. -/
def lbraceChar : Char := Char.ofNat 123

/-- The closing-brace character. -/
def rbraceChar : Char := Char.ofNat 125

/-- The opening-bracket character. -/
def lbrackChar : Char := Char.ofNat 91

/-- The closing-bracket character. -/
def rbrackChar : Char := Char.ofNat 93

/-- Escaping of one character inside a serialized JSON string, as
`json.dumps` performs it for the characters this package emits. -/
def jsonEscape (c : Char) : List Char :=
  if c = quoteChar then [backslashChar, quoteChar]
  else if c = backslashChar then [backslashChar, backslashChar]
  else if c = Char.ofNat 10 then [backslashChar, 'n']
  else if c = Char.ofNat 9 then [backslashChar, 't']
  else if c = Char.ofNat 13 then [backslashChar, 'r']
  else [c]

/-- Serialization of a string literal with surrounding quotes. -/
def jsonQuote (s : String) : String :=
  String.mk (quoteChar :: (s.data.map jsonEscape).flatten ++ [quoteChar])

mutual

/-- Serialization mirroring `json.dumps` with its default separators
(a comma-space between items, a colon-space between key and value). -/
def Json.dumps : Json → String
  | Json.null => "null"
  | Json.bool true => "true"
  | Json.bool false => "false"
  | Json.num n => toString n
  | Json.str s => jsonQuote s
  | Json.arr xs => "[" ++ dumpsElems xs ++ "]"
  | Json.obj fs => "\x7b" ++ dumpsFields fs ++ "\x7d"

/-- Serialization of array elements, comma-space separated. -/
def dumpsElems : List Json → String
  | [] => ""
  | [x] => Json.dumps x
  | x :: y :: rest => Json.dumps x ++ ", " ++ dumpsElems (y :: rest)

/-- Serialization of object members, comma-space separated. -/
def dumpsFields : List (String × Json) → String
  | [] => ""
  | [(k, v)] => jsonQuote k ++ ": " ++ Json.dumps v
  | (k, v) :: p :: rest => jsonQuote k ++ ": " ++ Json.dumps v ++ ", " ++ dumpsFields (p :: rest)

end

/-- Whitespace characters accepted between JSON tokens. -/
def jsonWs (c : Char) : Bool :=
  c = ' ' || c = Char.ofNat 9 || c = Char.ofNat 10 || c = Char.ofNat 13

/-- Drop leading JSON whitespace. -/
def skipWs : List Char → List Char
  | [] => []
  | c :: cs => if jsonWs c then skipWs cs else c :: cs

/-- Decoding of a string escape character; `\u` sequences are outside the
model and yield a parse failure. -/
def unescapeChar (c : Char) : Option Char :=
  if c = quoteChar then some quoteChar
  else if c = backslashChar then some backslashChar
  else if c = '/' then some '/'
  else if c = 'n' then some (Char.ofNat 10)
  else if c = 't' then some (Char.ofNat 9)
  else if c = 'r' then some (Char.ofNat 13)
  else if c = 'b' then some (Char.ofNat 8)
  else if c = 'f' then some (Char.ofNat 12)
  else none

/-- Parsing of a string body after the opening quote; returns the string and
the remaining input. -/
def parseStringBody : List Char → Option (String × List Char)
  | [] => none
  | c :: cs =>
    if c = quoteChar then some ("", cs)
    else if c = backslashChar then
      match cs with
      | [] => none
      | e :: cs2 =>
        match unescapeChar e with
        | none => none
        | some d =>
          match parseStringBody cs2 with
          | none => none
          | some (s, rest) => some (String.mk (d :: s.data), rest)
    else
      match parseStringBody cs with
      | none => none
      | some (s, rest) => some (String.mk (c :: s.data), rest)

/-- Split a maximal run of decimal digits off the front of the input. -/
def takeDigits : List Char → List Char × List Char
  | [] => ([], [])
  | c :: cs =>
    if c.isDigit then
      let p := takeDigits cs
      (c :: p.1, p.2)
    else ([], c :: cs)

/-- Numeric value of a digit run. -/
def digitsToNat (ds : List Char) : Nat :=
  ds.foldl (fun a c => a * 10 + (c.toNat - 48)) 0

/-- Parsing of an integer literal.  JSON forbids leading zeros; a trailing
`.`, `e` or `E` marks a floating-point literal, which is outside the model
and yields a parse failure. -/
def parseNumber (cs : List Char) : Option (Json × List Char) :=
  let p : Bool × List Char :=
    match cs with
    | c :: rest => if c = '-' then (true, rest) else (false, cs)
    | [] => (false, [])
  match takeDigits p.2 with
  | ([], _) => none
  | (d :: ds, rest) =>
    if d = '0' && ds ≠ [] then none
    else
      match rest with
      | c :: _ =>
        if c = '.' || c = 'e' || c = 'E' then none
        else some (Json.num (if p.1 then -(digitsToNat (d :: ds) : Int) else (digitsToNat (d :: ds) : Int)), rest)
      | [] => some (Json.num (if p.1 then -(digitsToNat (d :: ds) : Int) else (digitsToNat (d :: ds) : Int)), rest)

/-- Strip a literal keyword off the front of the input. -/
def takeLit : List Char → List Char → Option (List Char)
  | [], cs => some cs
  | _, [] => none
  | l :: ls, c :: cs => if l = c then takeLit ls cs else none

mutual

/-- Fuel-indexed parser for one JSON value; returns the value and the
remaining input.  `none` corresponds to `json.JSONDecodeError`. -/
def parseVal : Nat → List Char → Option (Json × List Char)
  | 0, _ => none
  | Nat.succ fuel, cs =>
    match skipWs cs with
    | [] => none
    | c :: rest =>
      if c = quoteChar then
        match parseStringBody rest with
        | none => none
        | some (s, r) => some (Json.str s, r)
      else if c = lbraceChar then
        match skipWs rest with
        | [] => none
        | d :: rest2 =>
          if d = rbraceChar then some (Json.obj [], rest2)
          else
            match parseMembers fuel (d :: rest2) with
            | none => none
            | some (fs, r) => some (Json.obj fs, r)
      else if c = lbrackChar then
        match skipWs rest with
        | [] => none
        | d :: rest2 =>
          if d = rbrackChar then some (Json.arr [], rest2)
          else
            match parseElems fuel (d :: rest2) with
            | none => none
            | some (xs, r) => some (Json.arr xs, r)
      else
        match takeLit "true".data (c :: rest) with
        | some r => some (Json.bool true, r)
        | none =>
          match takeLit "false".data (c :: rest) with
          | some r => some (Json.bool false, r)
          | none =>
            match takeLit "null".data (c :: rest) with
            | some r => some (Json.null, r)
            | none => parseNumber (c :: rest)

/-- Fuel-indexed parser for a nonempty comma-separated member list of an
object, consuming the closing brace. -/
def parseMembers : Nat → List Char → Option (List (String × Json) × List Char)
  | 0, _ => none
  | Nat.succ fuel, cs =>
    match skipWs cs with
    | [] => none
    | c :: rest =>
      if c = quoteChar then
        match parseStringBody rest with
        | none => none
        | some (key, rest2) =>
          match skipWs rest2 with
          | [] => none
          | d :: rest3 =>
            if d = ':' then
              match parseVal fuel rest3 with
              | none => none
              | some (v, rest4) =>
                match skipWs rest4 with
                | [] => none
                | e :: rest5 =>
                  if e = ',' then
                    match parseMembers fuel rest5 with
                    | none => none
                    | some (fs, r) => some ((key, v) :: fs, r)
                  else if e = rbraceChar then some ([(key, v)], rest5)
                  else none
            else none
      else none

/-- Fuel-indexed parser for a nonempty comma-separated element list of an
array, consuming the closing bracket. -/
def parseElems : Nat → List Char → Option (List Json × List Char)
  | 0, _ => none
  | Nat.succ fuel, cs =>
    match parseVal fuel cs with
    | none => none
    | some (v, rest) =>
      match skipWs rest with
      | [] => none
      | e :: rest2 =>
        if e = ',' then
          match parseElems fuel rest2 with
          | none => none
          | some (xs, r) => some (v :: xs, r)
        else if e = rbrackChar then some ([v], rest2)
        else none

end

/-- The model of `json.loads`: parse one value and require only whitespace
to remain.  The fuel bound exceeds any possible nesting depth of the
input. -/
def loads (s : String) : Option Json :=
  match parseVal (2 * s.length + 2) s.data with
  | none => none
  | some (v, rest) => if skipWs rest = [] then some v else none

/-! ## HTTP request/response model

Requests and responses carry case-consistent header association lists, as
all accesses in the package use one fixed spelling per header name.
-/

/-- Lookup in an association list, first match wins (dict lookup). -/
def assocGet {α : Type} (m : List (String × α)) (k : String) : Option α :=
  match m with
  | [] => none
  | p :: rest => if p.1 == k then some p.2 else assocGet rest k

/-- Update-or-append in an association list: a present key keeps its
position and gets the new value, an absent key is appended (Python dict
item assignment; keys are unique in every dict this package builds). -/
def assocSet {α : Type} (m : List (String × α)) (k : String) (v : α) : List (String × α) :=
  match m with
  | [] => [(k, v)]
  | p :: rest => if p.1 == k then (k, v) :: rest else p :: assocSet rest k v

/-- An inbound HTTP request: method, headers and form-encoded POST data. -/
structure HttpRequest where
  method : String
  headers : List (String × String)
  postData : List (String × String)
deriving Repr, DecidableEq

/-- An HTTP response: status code, body and headers. -/
structure HttpResponse where
  status : Nat
  body : String
  headers : List (String × String)
deriving Repr, DecidableEq

/-- Header assignment `response[name] = value`. -/
def setHeader (r : HttpResponse) (k v : String) : HttpResponse :=
  { r with headers := assocSet r.headers k v }

/-! ## `htmx_admin/mixins.py`: request classification and responses -/

/-- `HtmxResponseMixin.is_htmx_request`: the request originates from the
hypermedia-exchange client exactly when the `HX-Request` header carries
the literal value `true`. -/
def is_htmx_request (req : HttpRequest) : Bool :=
  assocGet req.headers "HX-Request" == some "true"

/-- `HtmxResponseMixin.htmx_response`: build a response with the given body
and status, and attach an `HX-Trigger` header holding the serialized
trigger mapping exactly when at least one trigger was supplied. -/
def htmx_response (content : String) (status : Nat) (triggers : List (String × Json)) : HttpResponse :=
  let response : HttpResponse := { status := status, body := content, headers := [] }
  if triggers.isEmpty then response
  else setHeader response "HX-Trigger" (Json.dumps (Json.obj triggers))

/-! ## `htmx_admin/middleware.py`: response interceptors -/

/-- Python truthiness of `request.headers.get(name)`: `None` and the empty
string are falsy, every other string is truthy.  Both middlewares gate on
this, not on `is_htmx_request`. -/
def pyTruthy : Option String → Bool
  | none => false
  | some s => !(s == "")

/-- The exception raised when item assignment hits a non-dict value. -/
inductive PyErr where
  | typeError
deriving Repr, DecidableEq

/-- A pending framework message, drained from the message storage: the
pair of its level tag and its text. -/
abbrev PendingMessage := String × String

/-- JSON payload of the `showMessages` event built by the message
middleware. -/
def messagesJson (msgs : List PendingMessage) : Json :=
  Json.arr (msgs.map (fun m => Json.obj [("level", Json.str m.1), ("message", Json.str m.2)]))

/-- The merge step of `HtmxMessageMiddleware.__call__` (middleware.py lines
69-82): parse the existing `HX-Trigger` value; on `JSONDecodeError`, a
truthy raw value other than the literal `{}` becomes a single
boolean-true event, a falsy one is discarded; then `showMessages` is
assigned into the mapping.  A value that parses to a non-mapping makes the
item assignment raise `TypeError`. -/
def mergeTriggers (existing : String) (messageList : Json) : Except PyErr (List (String × Json)) :=
  match loads existing with
  | some (Json.obj triggers) => Except.ok (assocSet triggers "showMessages" messageList)
  | some _ => Except.error PyErr.typeError
  | none =>
    let triggers : List (String × Json) :=
      if existing ≠ "" ∧ existing ≠ "\x7b\x7d" then [(existing, Json.bool true)] else []
    Except.ok (assocSet triggers "showMessages" messageList)

/-- `HtmxMessageMiddleware.__call__` applied to the inner response: skipped
unless the `HX-Request` header is truthy; with pending messages, the
`showMessages` event is merged into the existing `HX-Trigger` header
(defaulting to `{}` when absent) and the header is re-serialized. -/
def htmxMessageMiddleware (msgs : List PendingMessage) (req : HttpRequest)
    (response : HttpResponse) : Except PyErr HttpResponse :=
  if !pyTruthy (assocGet req.headers "HX-Request") then Except.ok response
  else if msgs.isEmpty then Except.ok response
  else
    let existing := (assocGet response.headers "HX-Trigger").getD "\x7b\x7d"
    match mergeTriggers existing (messagesJson msgs) with
    | Except.ok triggers =>
      Except.ok (setHeader response "HX-Trigger" (Json.dumps (Json.obj triggers)))
    | Except.error e => Except.error e

/-- `HtmxRedirectMiddleware.__call__` applied to the inner response:
skipped unless the `HX-Request` header is truthy; a 3xx response with a
nonempty `Location` is replaced by a fresh 204 response whose only header
is `HX-Redirect` set to that location; everything else passes through. -/
def htmxRedirectMiddleware (req : HttpRequest) (response : HttpResponse) : HttpResponse :=
  if !pyTruthy (assocGet req.headers "HX-Request") then response
  else if 300 ≤ response.status ∧ response.status < 400 then
    let redirect_url := (assocGet response.headers "Location").getD ""
    if redirect_url ≠ "" then
      { status := 204, body := "", headers := [("HX-Redirect", redirect_url)] }
    else response
  else response

/-! ## Host ORM and collaborator interfaces

Records live in a store holding one record per primary key.  The host's
validation, rendering and `__str__` operations are parameters of the
handlers, bundled in a `Host` structure; the handlers below are translated
from `admin.py` and `views.py` against this interface.
-/

/-- A persisted record: primary key and field values. -/
structure DbRecord where
  pk : Nat
  fields : List (String × String)
deriving Repr, DecidableEq

/-- The record store; primary keys are unique. -/
abbrev Store := List DbRecord

/-- ORM lookup by primary key (`objects.get` / `get_object_or_404`). -/
def findRecord : Store → Nat → Option DbRecord
  | [], _ => none
  | r :: rest, pk => if r.pk == pk then some r else findRecord rest pk

/-- ORM row deletion by primary key (`obj.delete()`); removes the one row
with that key. -/
def removeRecord : Store → Nat → Store
  | [], _ => []
  | r :: rest, pk => if r.pk == pk then rest else r :: removeRecord rest pk

/-- ORM save (`obj.save()` / `form.save()`): update the row with the same
primary key, or insert the record when the key is new. -/
def saveRecord : Store → DbRecord → Store
  | [], r => [r]
  | x :: rest, r => if x.pk == r.pk then r :: rest else x :: saveRecord rest r

/-- Set one field of an in-memory record instance. -/
def setField (r : DbRecord) (field value : String) : DbRecord :=
  { r with fields := assocSet r.fields field value }

/-- Read one field of a record instance (`getattr(obj, field)`). -/
def getField (r : DbRecord) (field : String) : String :=
  (assocGet r.fields field).getD ""

/-- Apply a cleaned field map onto a record instance. -/
def applyFields (r : DbRecord) (cleaned : List (String × String)) : DbRecord :=
  cleaned.foldl (fun acc p => setField acc p.1 p.2) r

/-- One ORM operation, recorded in the order the handler performs it. -/
inductive OrmOp where
  | load (pk : Nat)
  | save (pk : Nat)
  | create (pk : Nat)
  | del (pk : Nat)
deriving Repr, DecidableEq

/-- How a handler invocation ends: a response, the `Http404` raised by
`get_object_or_404` (rendered by the host as a 404 page), or an uncaught
exception such as `Model.DoesNotExist` (rendered by the host as a server
error, not a 404). -/
inductive Outcome where
  | resp (r : HttpResponse)
  | http404
  | exn (name : String)
deriving Repr, DecidableEq

/-- Result of running a handler: its outcome, the store after the request,
and the trace of ORM operations performed. -/
structure HandlerResult where
  outcome : Outcome
  store : Store
  trace : List OrmOp
deriving Repr, DecidableEq

/-- The host collaborators, at their interface boundary:

* `objStr` — the model's `__str__`, used for display labels;
* `cleanField` — single-field `ModelForm` validation: field name and the
  submitted raw value (`None` when the key is absent from the POST data)
  to the cleaned value, or `none` when validation fails;
* `renderEditCell` — the `edit_cell.html` fragment for a record, a field
  and the bound POST data (`[]` for an unbound form);
* `renderTableCell` — the read-only `table_cell.html` fragment for a
  record, a field, its displayed value and the `is_editable` flag;
* `renderModalForm` — the `modal_form.html` fragment for an optional
  record and the bound POST data;
* `cleanModal` — full-form validation for the form class narrowed to a
  field subset (`[]` meaning no narrowing), an optional existing instance
  and the POST data, yielding the cleaned field map or `none`;
* `freshPk` — the primary key the ORM assigns on insert. -/
structure Host where
  objStr : DbRecord → String
  cleanField : String → Option String → Option String
  renderEditCell : DbRecord → String → List (String × String) → String
  renderTableCell : DbRecord → String → String → Bool → String
  renderModalForm : Option DbRecord → List (String × String) → String
  cleanModal : List String → Option DbRecord → List (String × String) → Option (List (String × String))
  freshPk : Store → Nat

/-- Per-admin configuration of `HtmxModelAdmin`. -/
structure AdminConfig where
  list_editable_htmx : List String
  modal_fields : List String
deriving Repr, DecidableEq

/-- The identity token of the modal endpoint: the reserved sentinel `add`
or an existing record's key. -/
inductive ObjectId where
  | add
  | pk (n : Nat)
deriving Repr, DecidableEq

/-! ## `admin.py`: the `HtmxModelAdmin` endpoint handlers -/

/-- `HtmxModelAdmin.htmx_edit_field` (admin.py lines 134-190): the record
is loaded first (`get_object_or_404`), then the field is checked against
`list_editable_htmx` (403 on failure); GET renders the edit form, a valid
POST saves and renders the read-only cell with a bare `cellUpdated`
trigger, an invalid POST re-renders the edit form with status 422, any
other method gets 405. -/
def htmx_edit_field (host : Host) (cfg : AdminConfig) (store : Store)
    (req : HttpRequest) (object_id : Nat) (field : String) : HandlerResult :=
  match findRecord store object_id with
  | none => ⟨Outcome.http404, store, [OrmOp.load object_id]⟩
  | some obj =>
    if !(cfg.list_editable_htmx.contains field) then
      ⟨Outcome.resp ⟨403, "Field not editable", []⟩, store, [OrmOp.load object_id]⟩
    else if req.method == "GET" then
      ⟨Outcome.resp ⟨200, host.renderEditCell obj field [], []⟩, store, [OrmOp.load object_id]⟩
    else if req.method == "POST" then
      match host.cleanField field (assocGet req.postData field) with
      | some value =>
        let obj2 := setField obj field value
        let response : HttpResponse := ⟨200, host.renderTableCell obj2 field (getField obj2 field) true, []⟩
        ⟨Outcome.resp (setHeader response "HX-Trigger" "cellUpdated"),
          saveRecord store obj2, [OrmOp.load object_id, OrmOp.save object_id]⟩
      | none =>
        ⟨Outcome.resp ⟨422, host.renderEditCell obj field req.postData, []⟩,
          store, [OrmOp.load object_id]⟩
    else
      ⟨Outcome.resp ⟨405, "Method not allowed", []⟩, store, [OrmOp.load object_id]⟩

/-- `HtmxModelAdmin.htmx_get_cell` (admin.py lines 192-215): load the
record and render the read-only cell, recomputing editability; no write
side effects. -/
def htmx_get_cell (host : Host) (cfg : AdminConfig) (store : Store)
    (object_id : Nat) (field : String) : HandlerResult :=
  match findRecord store object_id with
  | none => ⟨Outcome.http404, store, [OrmOp.load object_id]⟩
  | some obj =>
    ⟨Outcome.resp ⟨200, host.renderTableCell obj field (getField obj field)
        (cfg.list_editable_htmx.contains field), []⟩,
      store, [OrmOp.load object_id]⟩

/-- `HtmxModelAdmin.htmx_delete` (admin.py lines 217-240): load
(`get_object_or_404`), capture the display label, delete, then answer 204
with an `HX-Trigger` bundling `showMessage` and `refreshTable` — and no
`rowDeleted` event. -/
def htmx_delete (host : Host) (store : Store) (object_id : Nat) : HandlerResult :=
  match findRecord store object_id with
  | none => ⟨Outcome.http404, store, [OrmOp.load object_id]⟩
  | some obj =>
    let obj_display := host.objStr obj
    let response : HttpResponse := ⟨204, "", []⟩
    let triggers : List (String × Json) :=
      [("showMessage", Json.obj [("level", Json.str "success"),
          ("message", Json.str (obj_display ++ " deleted successfully."))]),
        ("refreshTable", Json.bool true)]
    ⟨Outcome.resp (setHeader response "HX-Trigger" (Json.dumps (Json.obj triggers))),
      removeRecord store object_id, [OrmOp.load object_id, OrmOp.del object_id]⟩

/-- `HtmxModelAdmin.htmx_modal` (admin.py lines 242-310): resolve the
identity token (`add` loads nothing, a key is loaded with
`get_object_or_404`), narrow the form to `modal_fields` when configured;
GET renders the modal form; a valid POST saves (update or insert) and
answers **status 200** with empty body and an `HX-Trigger` bundling
`showMessage`, `refreshTable` and `modalClosed`; an invalid POST
re-renders the form with 422; any other method gets 405. -/
def htmx_modal (host : Host) (cfg : AdminConfig) (store : Store)
    (req : HttpRequest) (object_id : ObjectId) : HandlerResult :=
  let loaded : Option (Option DbRecord) × List OrmOp :=
    match object_id with
    | ObjectId.add => (some none, [])
    | ObjectId.pk n =>
      match findRecord store n with
      | none => (none, [OrmOp.load n])
      | some o => (some (some o), [OrmOp.load n])
  match loaded with
  | (none, tr) => ⟨Outcome.http404, store, tr⟩
  | (some obj, tr) =>
    if req.method == "GET" then
      ⟨Outcome.resp ⟨200, host.renderModalForm obj [], []⟩, store, tr⟩
    else if req.method == "POST" then
      match host.cleanModal cfg.modal_fields obj req.postData with
      | some cleaned =>
        let saved : DbRecord × Store × OrmOp :=
          match obj with
          | none =>
            let n := host.freshPk store
            let inst := applyFields ⟨n, []⟩ cleaned
            (inst, saveRecord store inst, OrmOp.create n)
          | some o =>
            let inst := applyFields o cleaned
            (inst, saveRecord store inst, OrmOp.save o.pk)
        let response : HttpResponse := ⟨200, "", []⟩
        let triggers : List (String × Json) :=
          [("showMessage", Json.obj [("level", Json.str "success"),
              ("message", Json.str (host.objStr saved.1 ++ " saved successfully."))]),
            ("refreshTable", Json.bool true),
            ("modalClosed", Json.bool true)]
        ⟨Outcome.resp (setHeader response "HX-Trigger" (Json.dumps (Json.obj triggers))),
          saved.2.1, tr ++ [saved.2.2]⟩
      | none =>
        ⟨Outcome.resp ⟨422, host.renderModalForm obj req.postData, []⟩, store, tr⟩
    else
      ⟨Outcome.resp ⟨405, "Method not allowed", []⟩, store, tr⟩

/-! ## `views.py`: the standalone endpoint views -/

/-- `HtmxDeleteView.post` (views.py lines 29-42): the record is fetched
with `objects.get`, so a missing key raises `DoesNotExist` (an uncaught
exception, not a 404); on success the record is deleted and the view
answers 204 via `htmx_response` with `rowDeleted` keyed by the identity
and a success `showMessage`. -/
def HtmxDeleteView_post (host : Host) (store : Store) (pk : Nat) : HandlerResult :=
  match findRecord store pk with
  | none => ⟨Outcome.exn "DoesNotExist", store, [OrmOp.load pk]⟩
  | some obj =>
    let obj_display := host.objStr obj
    ⟨Outcome.resp (htmx_response "" 204
        [("rowDeleted", Json.obj [("id", Json.str (toString pk))]),
          ("showMessage", Json.obj [("level", Json.str "success"),
            ("message", Json.str (obj_display ++ " deleted successfully."))])]),
      removeRecord store pk, [OrmOp.load pk, OrmOp.del pk]⟩

/-- `HtmxInlineEditView.get` (views.py lines 92-107): the field is checked
against `editable_fields` **before** any data access (403 with no load),
then the record is loaded and the edit form rendered. -/
def HtmxInlineEditView_get (host : Host) (editable_fields : List String)
    (store : Store) (pk : Nat) (field : String) : HandlerResult :=
  if !(editable_fields.contains field) then
    ⟨Outcome.resp ⟨403, "Field not editable", []⟩, store, []⟩
  else
    match findRecord store pk with
    | none => ⟨Outcome.http404, store, [OrmOp.load pk]⟩
    | some obj =>
      ⟨Outcome.resp ⟨200, host.renderEditCell obj field [], []⟩, store, [OrmOp.load pk]⟩

/-- `HtmxInlineEditView.post` (views.py lines 109-141): the field is
checked against `editable_fields` before any data access (403 with no
load); a valid submission saves and renders the read-only cell with a bare
`cellUpdated` trigger, an invalid one re-renders the edit form with
status 422. -/
def HtmxInlineEditView_post (host : Host) (editable_fields : List String)
    (store : Store) (req : HttpRequest) (pk : Nat) (field : String) : HandlerResult :=
  if !(editable_fields.contains field) then
    ⟨Outcome.resp ⟨403, "Field not editable", []⟩, store, []⟩
  else
    match findRecord store pk with
    | none => ⟨Outcome.http404, store, [OrmOp.load pk]⟩
    | some obj =>
      match host.cleanField field (assocGet req.postData field) with
      | some value =>
        let obj2 := setField obj field value
        let response : HttpResponse := ⟨200, host.renderTableCell obj2 field (getField obj2 field) true, []⟩
        ⟨Outcome.resp (setHeader response "HX-Trigger" "cellUpdated"),
          saveRecord store obj2, [OrmOp.load pk, OrmOp.save pk]⟩
      | none =>
        ⟨Outcome.resp ⟨422, host.renderEditCell obj field req.postData, []⟩,
          store, [OrmOp.load pk]⟩

/-- `HtmxModalView.post` (views.py lines 175-204): resolve the identity
token (a missing key is a 404 via `get_object_or_404`); a valid submission
saves and answers 204 via `htmx_response` with `modalClosed`,
`tableRefresh` and a success `showMessage`; an invalid one re-renders the
modal form with status 422.  The form class is host-provided, so no field
narrowing applies. -/
def HtmxModalView_post (host : Host) (store : Store)
    (req : HttpRequest) (object_id : ObjectId) : HandlerResult :=
  let loaded : Option (Option DbRecord) × List OrmOp :=
    match object_id with
    | ObjectId.add => (some none, [])
    | ObjectId.pk n =>
      match findRecord store n with
      | none => (none, [OrmOp.load n])
      | some o => (some (some o), [OrmOp.load n])
  match loaded with
  | (none, tr) => ⟨Outcome.http404, store, tr⟩
  | (some obj, tr) =>
    match host.cleanModal [] obj req.postData with
    | some cleaned =>
      let saved : DbRecord × Store × OrmOp :=
        match obj with
        | none =>
          let n := host.freshPk store
          let inst := applyFields ⟨n, []⟩ cleaned
          (inst, saveRecord store inst, OrmOp.create n)
        | some o =>
          let inst := applyFields o cleaned
          (inst, saveRecord store inst, OrmOp.save o.pk)
      ⟨Outcome.resp (htmx_response "" 204
          [("modalClosed", Json.bool true),
            ("tableRefresh", Json.bool true),
            ("showMessage", Json.obj [("level", Json.str "success"),
              ("message", Json.str (host.objStr saved.1 ++ " saved successfully."))])]),
        saved.2.1, tr ++ [saved.2.2]⟩
    | none =>
      ⟨Outcome.resp ⟨422, host.renderModalForm obj req.postData, []⟩, store, tr⟩

/-! ## Observation helpers and concrete fixtures -/

/-- Status of a handler outcome, when it is a response. -/
def Outcome.toStatus : Outcome → Option Nat
  | Outcome.resp r => some r.status
  | _ => none

/-- Body of a handler outcome, when it is a response. -/
def Outcome.toBody : Outcome → Option String
  | Outcome.resp r => some r.body
  | _ => none

/-- The raw `HX-Trigger` header of a response. -/
def Outcome.rawTrigger : Outcome → Option String
  | Outcome.resp r => assocGet r.headers "HX-Trigger"
  | _ => none

/-- Lookup of one event in a response's side-channel signal: the
`HX-Trigger` header parsed as a JSON mapping. -/
def respTriggerLookup (r : HttpResponse) (k : String) : Option Json :=
  match assocGet r.headers "HX-Trigger" with
  | none => none
  | some s =>
    match loads s with
    | some (Json.obj m) => assocGet m k
    | _ => none

/-- Lookup of one event in a handler outcome's side-channel signal. -/
def Outcome.triggerLookup : Outcome → String → Option Json
  | Outcome.resp r, k => respTriggerLookup r k
  | _, _ => none

/-- A concrete host: display label is the `name` field, single-field
cleaning is the identity on the submitted value, the modal form accepts
the posted data as cleaned, templates render distinctive strings, and
inserts get the next free key. -/
def hostEx : Host where
  objStr r := getField r "name"
  cleanField := fun _ v => v
  renderEditCell := fun obj field bound =>
    "editcell " ++ toString obj.pk ++ " " ++ field ++ " bound " ++ toString bound.length
  renderTableCell := fun obj field value e =>
    "cell " ++ toString obj.pk ++ " " ++ field ++ " " ++ value ++ " " ++ toString e
  renderModalForm := fun obj bound =>
    "modalform " ++ (match obj with | none => "new" | some o => toString o.pk)
      ++ " bound " ++ toString bound.length
  cleanModal := fun _ _ data => some data
  freshPk := fun store => store.length + 1

/-- The same host with validation failing on every submission. -/
def hostReject : Host :=
  { hostEx with cleanField := fun _ _ => none, cleanModal := fun _ _ _ => none }

/-- A concrete record. -/
def recordEx : DbRecord := ⟨1, [("name", "Widget"), ("price", "10")]⟩

/-- A one-record store. -/
def storeEx : Store := [recordEx]

/-- Admin configuration allowing inline edits of `price` only. -/
def cfgEx : AdminConfig := ⟨["price"], []⟩

/-- A GET request with no special headers. -/
def reqGetEx : HttpRequest := ⟨"GET", [], []⟩

/-- A POST request submitting a new `price`. -/
def reqPostEx : HttpRequest := ⟨"POST", [], [("price", "25")]⟩

/-- A POST request submitting modal form data. -/
def reqModalPostEx : HttpRequest := ⟨"POST", [], [("name", "Gadget")]⟩

/-- A request whose `HX-Request` header is present but not `true`. -/
def reqFalseHx : HttpRequest := ⟨"GET", [("HX-Request", "false")], []⟩

/-- A request whose `HX-Request` header is exactly `true`. -/
def reqTrueHx : HttpRequest := ⟨"GET", [("HX-Request", "true")], []⟩

/-- A plain inner response with no headers. -/
def respPlainEx : HttpResponse := ⟨200, "", []⟩

/-- A redirect inner response with a `Location` target. -/
def respRedirectEx : HttpResponse := ⟨302, "", [("Location", "/new-url/")]⟩

/-! ## Helper lemmas -/

/-- Looking up a key just set in an association list yields the new value. -/
theorem assocGet_assocSet {α : Type} (m : List (String × α)) (k : String) (v : α) :
    assocGet (assocSet m k v) k = some v := by
  induction m with
  | nil => simp [assocSet, assocGet]
  | cons p rest ih =>
    by_cases h : p.1 == k
    · simp [assocSet, assocGet, h]
    · simp only [assocSet, assocGet, h]
      simp [h, ih]

/-- A saved record is found again under its own primary key. -/
theorem findRecord_saveRecord (store : Store) (r : DbRecord) :
    findRecord (saveRecord store r) r.pk = some r := by
  induction store with
  | nil => simp [saveRecord, findRecord]
  | cons x rest ih =>
    by_cases h : x.pk == r.pk
    · simp [saveRecord, findRecord, h]
    · simp only [saveRecord, findRecord, h]
      simp [h, ih]

/-- A record found under a primary key carries that key. -/
theorem findRecord_pk {store : Store} {pk : Nat} {r : DbRecord}
    (h : findRecord store pk = some r) : r.pk = pk := by
  induction store with
  | nil => simp [findRecord] at h
  | cons x rest ih =>
    by_cases hx : x.pk == pk
    · simp only [findRecord, hx, if_true, Option.some.injEq] at h
      subst h
      simpa using hx
    · simp only [findRecord, hx, if_false] at h
      exact ih h

/-! ## Claim theorems -/

/-- C10: `htmx_response(content, status, triggers)` answers exactly the
given status and body, and carries an `HX-Trigger` header precisely when
at least one trigger event was supplied, in which case the header value is
the JSON serialization of the trigger mapping. -/
theorem C10_htmx_response (content : String) (status : Nat) (triggers : List (String × Json)) :
    (htmx_response content status triggers).status = status ∧
    (htmx_response content status triggers).body = content ∧
    (triggers = [] → assocGet (htmx_response content status triggers).headers "HX-Trigger" = none) ∧
    (triggers ≠ [] → assocGet (htmx_response content status triggers).headers "HX-Trigger"
        = some (Json.dumps (Json.obj triggers))) := by
  cases triggers with
  | nil => simp [htmx_response, assocGet]
  | cons t ts => simp [htmx_response, setHeader, assocSet, assocGet]

/-- Witness for C10 at a concrete trigger list. -/
theorem C10_witness :
    assocGet (htmx_response "" 204 [("formSuccess", Json.bool true)]).headers "HX-Trigger"
      = some (Json.dumps (Json.obj [("formSuccess", Json.bool true)])) :=
  (C10_htmx_response "" 204 [("formSuccess", Json.bool true)]).2.2.2 (by simp)

/-- C8 (amended): a request is classified hypermedia-exchange-origin
exactly when its `HX-Request` header is literally `true`, and
classification implies the interceptors' gate; the interceptors
themselves, however, gate on mere truthiness of the header, skipping only
requests whose header is absent or empty — not on the classification. -/
theorem C8_request_classification (req : HttpRequest) (msgs : List PendingMessage)
    (resp : HttpResponse) :
    (is_htmx_request req = true ↔ assocGet req.headers "HX-Request" = some "true") ∧
    (is_htmx_request req = true → pyTruthy (assocGet req.headers "HX-Request") = true) ∧
    (pyTruthy (assocGet req.headers "HX-Request") = false →
      htmxMessageMiddleware msgs req resp = Except.ok resp ∧
      htmxRedirectMiddleware req resp = resp) := by
  refine ⟨?_, ?_, ?_⟩
  · simp [is_htmx_request]
  · intro h
    simp only [is_htmx_request, beq_iff_eq] at h
    simp [pyTruthy, h]
  · intro h
    exact ⟨by simp [htmxMessageMiddleware, h], by simp [htmxRedirectMiddleware, h]⟩

/-- Counterexample to C8 as stated: a request whose `HX-Request` header is
`false` is classified as a normal navigation request, yet the
message-to-signal interceptor still processes its response. -/
theorem C8_counterexample :
    is_htmx_request reqFalseHx = false ∧
    htmxMessageMiddleware [("success", "Saved.")] reqFalseHx respPlainEx =
      Except.ok (setHeader respPlainEx "HX-Trigger"
        (Json.dumps (Json.obj [("showMessages", messagesJson [("success", "Saved.")])]))) ∧
    setHeader respPlainEx "HX-Trigger"
        (Json.dumps (Json.obj [("showMessages", messagesJson [("success", "Saved.")])]))
      ≠ respPlainEx :=
  ⟨rfl, rfl, by decide⟩

/-- Witness for C8 at a concrete fragment-mode request. -/
theorem C8_witness :
    pyTruthy (assocGet reqTrueHx.headers "HX-Request") = true :=
  (C8_request_classification reqTrueHx [] respPlainEx).2.1 (by decide)

/-- C5 (amended): the redirect interceptor replaces a 3xx response by a
204 carrying `HX-Redirect` equal to the `Location` target whenever the
request bears a truthy `HX-Request` header (any nonempty value, not only
the exact classification value) and the response has a nonempty
`Location`; responses to requests with an absent or empty header, 3xx
responses without a `Location` target, and non-3xx responses all pass
through unchanged. -/
theorem C5_redirect_middleware (req : HttpRequest) (resp : HttpResponse) (loc : String) :
    (pyTruthy (assocGet req.headers "HX-Request") = true →
      300 ≤ resp.status → resp.status < 400 →
      assocGet resp.headers "Location" = some loc → loc ≠ "" →
      htmxRedirectMiddleware req resp = ⟨204, "", [("HX-Redirect", loc)]⟩) ∧
    (pyTruthy (assocGet req.headers "HX-Request") = false →
      htmxRedirectMiddleware req resp = resp) ∧
    ((assocGet resp.headers "Location").getD "" = "" →
      htmxRedirectMiddleware req resp = resp) ∧
    (resp.status < 300 ∨ 400 ≤ resp.status → htmxRedirectMiddleware req resp = resp) := by
  refine ⟨?_, ?_, ?_, ?_⟩
  · intro hgate h3 h4 hloc hne
    simp [htmxRedirectMiddleware, hgate, h3, h4, hloc, hne]
  · intro hgate
    simp [htmxRedirectMiddleware, hgate]
  · intro hloc
    by_cases hgate : pyTruthy (assocGet req.headers "HX-Request")
    · by_cases hst : 300 ≤ resp.status ∧ resp.status < 400
      · simp [htmxRedirectMiddleware, hgate, hst, hloc]
      · simp [htmxRedirectMiddleware, hgate, hst]
    · simp [htmxRedirectMiddleware, hgate]
  · intro hst
    have hst2 : ¬(300 ≤ resp.status ∧ resp.status < 400) := by omega
    by_cases hgate : pyTruthy (assocGet req.headers "HX-Request")
    · simp [htmxRedirectMiddleware, hgate, hst2]
    · simp [htmxRedirectMiddleware, hgate]

/-- Counterexample to C5 as stated: a request whose `HX-Request` header is
`false` is not fragment-mode, yet its 3xx response is converted rather
than passed through unchanged. -/
theorem C5_counterexample :
    is_htmx_request reqFalseHx = false ∧
    htmxRedirectMiddleware reqFalseHx respRedirectEx = ⟨204, "", [("HX-Redirect", "/new-url/")]⟩ ∧
    htmxRedirectMiddleware reqFalseHx respRedirectEx ≠ respRedirectEx :=
  ⟨rfl, rfl, by decide⟩

/-- Witness for C5 at a concrete fragment-mode request and redirect. -/
theorem C5_witness :
    htmxRedirectMiddleware reqTrueHx respRedirectEx = ⟨204, "", [("HX-Redirect", "/new-url/")]⟩ :=
  (C5_redirect_middleware reqTrueHx respRedirectEx "/new-url/").1 (by decide) (by decide)
    (by decide) (by decide) (by decide)

/-- C4 (amended): the merge parses the prior header value; a prior that
parses as a mapping is unioned with the new events (dict assignment,
new keys overwriting old); a prior that fails to parse is treated as a
single event name mapped to boolean true before the union — unless the
unparseable prior is the empty string, which is discarded (Python
truthiness), so that no empty-named event is created. -/
theorem C4_merge_contract (existing : String) (messageList : Json) :
    (∀ m, loads existing = some (Json.obj m) →
      mergeTriggers existing messageList
        = Except.ok (assocSet m "showMessages" messageList)) ∧
    (loads existing = none → existing ≠ "" →
      mergeTriggers existing messageList
        = Except.ok (assocSet [(existing, Json.bool true)] "showMessages" messageList)) ∧
    (loads existing = none → existing = "" →
      mergeTriggers existing messageList = Except.ok [("showMessages", messageList)]) := by
  refine ⟨?_, ?_, ?_⟩
  · intro m h
    simp [mergeTriggers, h]
  · intro h hne
    have hbrace : existing ≠ "\x7b\x7d" := by
      intro he
      rw [he] at h
      have : loads "\x7b\x7d" = some (Json.obj []) := rfl
      rw [this] at h
      exact Option.noConfusion h
    simp [mergeTriggers, h, hne, hbrace]
  · intro h he
    subst he
    simp [mergeTriggers, h, assocSet]

/-- Counterexample to C4 as stated: the empty string is a prior value that
fails to parse, but it is not treated as a single event name mapped to
true — the merged mapping carries no empty-named key. -/
theorem C4_counterexample :
    loads "" = none ∧
    mergeTriggers "" (Json.arr []) = Except.ok [("showMessages", Json.arr [])] ∧
    assocGet [("showMessages", Json.arr [])] "" = (none : Option Json) :=
  ⟨rfl, rfl, rfl⟩

/-- Witness for C4: merging into the bare prior string `fooEvent` yields
that name mapped to true together with the new events. -/
theorem C4_witness :
    mergeTriggers "fooEvent" (Json.arr [])
      = Except.ok [("fooEvent", Json.bool true), ("showMessages", Json.arr [])] :=
  ((C4_merge_contract "fooEvent" (Json.arr [])).2.1 rfl (by decide)).trans rfl

/-- C1 (amended): a field-edit request for a field outside the allowlist
is answered 403 with nothing persisted by both implementations; the
standalone view rejects before any ORM operation, while the admin handler
first loads the record with `get_object_or_404` (404 when absent) and
only then rejects. -/
theorem C1_forbidden_field (host : Host) (cfg : AdminConfig) (efs : List String)
    (store : Store) (req : HttpRequest) (pk : Nat) (field : String) :
    (∀ obj, findRecord store pk = some obj →
      cfg.list_editable_htmx.contains field = false →
      htmx_edit_field host cfg store req pk field
        = ⟨Outcome.resp ⟨403, "Field not editable", []⟩, store, [OrmOp.load pk]⟩) ∧
    (efs.contains field = false →
      HtmxInlineEditView_get host efs store pk field
          = ⟨Outcome.resp ⟨403, "Field not editable", []⟩, store, []⟩ ∧
      HtmxInlineEditView_post host efs store req pk field
          = ⟨Outcome.resp ⟨403, "Field not editable", []⟩, store, []⟩) := by
  constructor
  · intro obj hfind hf
    have hmem : field ∉ cfg.list_editable_htmx := by simpa using hf
    simp [htmx_edit_field, hfind, hmem]
  · intro hf
    have hmem : field ∉ efs := by simpa using hf
    exact ⟨by simp [HtmxInlineEditView_get, hmem], by simp [HtmxInlineEditView_post, hmem]⟩

/-- Counterexample to C1 as stated: the admin handler answers 403 for a
non-editable field, but only after loading the record — the ORM trace of
the rejected request is not empty. -/
theorem C1_counterexample :
    (htmx_edit_field hostEx cfgEx storeEx reqGetEx 1 "name").outcome
      = Outcome.resp ⟨403, "Field not editable", []⟩ ∧
    (htmx_edit_field hostEx cfgEx storeEx reqGetEx 1 "name").trace = [OrmOp.load 1] :=
  ⟨rfl, rfl⟩

/-- Witness for C1 at concrete inputs: the standalone view rejects with no
data access, the admin handler rejects after one load. -/
theorem C1_witness :
    HtmxInlineEditView_get hostEx ["price"] storeEx 1 "name"
        = ⟨Outcome.resp ⟨403, "Field not editable", []⟩, storeEx, []⟩ ∧
    htmx_edit_field hostEx cfgEx storeEx reqGetEx 1 "name"
        = ⟨Outcome.resp ⟨403, "Field not editable", []⟩, storeEx, [OrmOp.load 1]⟩ :=
  ⟨((C1_forbidden_field hostEx cfgEx ["price"] storeEx reqGetEx 1 "name").2 (by decide)).1,
    (C1_forbidden_field hostEx cfgEx ["price"] storeEx reqGetEx 1 "name").1 recordEx
      (by decide) (by decide)⟩

/-- C6: an invalid submission to either edit-field endpoint or either
modal endpoint is answered 422 with the re-rendered bound form fragment,
and the store is unchanged — no save occurs on the error path. -/
theorem C6_invalid_submission (host : Host) (cfg : AdminConfig) (efs : List String)
    (store : Store) (req : HttpRequest) (field : String) :
    (∀ pk obj, findRecord store pk = some obj →
      cfg.list_editable_htmx.contains field = true → req.method = "POST" →
      host.cleanField field (assocGet req.postData field) = none →
      htmx_edit_field host cfg store req pk field
        = ⟨Outcome.resp ⟨422, host.renderEditCell obj field req.postData, []⟩,
            store, [OrmOp.load pk]⟩) ∧
    (∀ pk obj, findRecord store pk = some obj →
      efs.contains field = true →
      host.cleanField field (assocGet req.postData field) = none →
      HtmxInlineEditView_post host efs store req pk field
        = ⟨Outcome.resp ⟨422, host.renderEditCell obj field req.postData, []⟩,
            store, [OrmOp.load pk]⟩) ∧
    (∀ n o, findRecord store n = some o → req.method = "POST" →
      host.cleanModal cfg.modal_fields (some o) req.postData = none →
      htmx_modal host cfg store req (ObjectId.pk n)
        = ⟨Outcome.resp ⟨422, host.renderModalForm (some o) req.postData, []⟩,
            store, [OrmOp.load n]⟩) ∧
    (req.method = "POST" → host.cleanModal cfg.modal_fields none req.postData = none →
      htmx_modal host cfg store req ObjectId.add
        = ⟨Outcome.resp ⟨422, host.renderModalForm none req.postData, []⟩, store, []⟩) ∧
    (∀ n o, findRecord store n = some o →
      host.cleanModal [] (some o) req.postData = none →
      HtmxModalView_post host store req (ObjectId.pk n)
        = ⟨Outcome.resp ⟨422, host.renderModalForm (some o) req.postData, []⟩,
            store, [OrmOp.load n]⟩) ∧
    (host.cleanModal [] none req.postData = none →
      HtmxModalView_post host store req ObjectId.add
        = ⟨Outcome.resp ⟨422, host.renderModalForm none req.postData, []⟩, store, []⟩) := by
  refine ⟨?_, ?_, ?_, ?_, ?_, ?_⟩
  · intro pk obj hfind hc hm hclean
    have hmem : field ∈ cfg.list_editable_htmx := by simpa using hc
    simp [htmx_edit_field, hfind, hmem, hm, hclean]
  · intro pk obj hfind hc hclean
    have hmem : field ∈ efs := by simpa using hc
    simp [HtmxInlineEditView_post, hfind, hmem, hclean]
  · intro n o hfind hm hclean
    simp [htmx_modal, hfind, hm, hclean]
  · intro hm hclean
    simp [htmx_modal, hm, hclean]
  · intro n o hfind hclean
    simp [HtmxModalView_post, hfind, hclean]
  · intro hclean
    simp [HtmxModalView_post, hclean]

/-- Witness for C6: with a rejecting host, the admin edit-field POST and
the standalone modal POST both answer 422 and leave the store as it
was. -/
theorem C6_witness :
    htmx_edit_field hostReject cfgEx storeEx reqPostEx 1 "price"
        = ⟨Outcome.resp ⟨422, hostReject.renderEditCell recordEx "price" reqPostEx.postData, []⟩,
            storeEx, [OrmOp.load 1]⟩ ∧
    HtmxModalView_post hostReject storeEx reqModalPostEx (ObjectId.pk 1)
        = ⟨Outcome.resp ⟨422, hostReject.renderModalForm (some recordEx) reqModalPostEx.postData, []⟩,
            storeEx, [OrmOp.load 1]⟩ :=
  ⟨(C6_invalid_submission hostReject cfgEx [] storeEx reqPostEx "price").1 1 recordEx
      (by decide) (by decide) rfl rfl,
    (C6_invalid_submission hostReject cfgEx [] storeEx reqModalPostEx "price").2.2.2.2.1 1 recordEx
      (by decide) rfl⟩

/-- C7: a valid POST to either edit-field endpoint with an allowlisted
field answers 200, the body is the read-only cell fragment rendered from
the updated record and new value (not the edit form), a bare `cellUpdated`
trigger is attached, and the persisted record's field equals the cleaned
submitted value. -/
theorem C7_valid_edit (host : Host) (cfg : AdminConfig) (efs : List String)
    (store : Store) (req : HttpRequest) (pk : Nat) (field : String) (obj : DbRecord) (v : String) :
    findRecord store pk = some obj →
    host.cleanField field (assocGet req.postData field) = some v →
    (cfg.list_editable_htmx.contains field = true → req.method = "POST" →
      htmx_edit_field host cfg store req pk field
        = ⟨Outcome.resp (setHeader ⟨200, host.renderTableCell (setField obj field v) field v true, []⟩
              "HX-Trigger" "cellUpdated"),
            saveRecord store (setField obj field v), [OrmOp.load pk, OrmOp.save pk]⟩) ∧
    (efs.contains field = true →
      HtmxInlineEditView_post host efs store req pk field
        = ⟨Outcome.resp (setHeader ⟨200, host.renderTableCell (setField obj field v) field v true, []⟩
              "HX-Trigger" "cellUpdated"),
            saveRecord store (setField obj field v), [OrmOp.load pk, OrmOp.save pk]⟩) ∧
    getField (setField obj field v) field = v ∧
    findRecord (saveRecord store (setField obj field v)) pk = some (setField obj field v) := by
  intro hfind hclean
  have hgf : getField (setField obj field v) field = v := by
    simp [getField, setField, assocGet_assocSet]
  refine ⟨?_, ?_, hgf, ?_⟩
  · intro hc hm
    have hmem : field ∈ cfg.list_editable_htmx := by simpa using hc
    simp [htmx_edit_field, hfind, hmem, hm, hclean, hgf]
  · intro hc
    have hmem : field ∈ efs := by simpa using hc
    simp [HtmxInlineEditView_post, hfind, hmem, hclean, hgf]
  · have hpk : (setField obj field v).pk = pk := by
      simpa [setField] using findRecord_pk hfind
    have := findRecord_saveRecord store (setField obj field v)
    rwa [hpk] at this

/-- Witness for C7 at concrete inputs: editing `price` to `25` persists it
and answers with the cell fragment and the `cellUpdated` trigger. -/
theorem C7_witness :
    htmx_edit_field hostEx cfgEx storeEx reqPostEx 1 "price"
        = ⟨Outcome.resp (setHeader ⟨200,
              hostEx.renderTableCell (setField recordEx "price" "25") "price" "25" true, []⟩
              "HX-Trigger" "cellUpdated"),
            saveRecord storeEx (setField recordEx "price" "25"),
            [OrmOp.load 1, OrmOp.save 1]⟩ ∧
    findRecord (saveRecord storeEx (setField recordEx "price" "25")) 1
        = some (setField recordEx "price" "25") :=
  ⟨((C7_valid_edit hostEx cfgEx [] storeEx reqPostEx 1 "price" recordEx "25"
      (by decide) rfl).1 (by decide) rfl),
    (C7_valid_edit hostEx cfgEx [] storeEx reqPostEx 1 "price" recordEx "25"
      (by decide) rfl).2.2.2⟩

set_option maxRecDepth 16384 in
/-- C2 (code bug): on an existing identity the admin delete endpoint does
answer 204 and removes exactly that record, but its side-channel signal
carries `showMessage` and `refreshTable` only — no `rowDeleted` event
keyed with the identity, contrary to the claim and to the repository's
own `DeleteOperationTest` documentation; the standalone
`HtmxDeleteView.post` does emit `rowDeleted` keyed with the identity. -/
theorem C2_admin_delete_no_rowDeleted :
    (htmx_delete hostEx storeEx 1).store = [] ∧
    Outcome.toStatus (htmx_delete hostEx storeEx 1).outcome = some 204 ∧
    Outcome.triggerLookup (htmx_delete hostEx storeEx 1).outcome "rowDeleted" = none ∧
    Outcome.triggerLookup (htmx_delete hostEx storeEx 1).outcome "refreshTable"
      = some (Json.bool true) ∧
    Outcome.triggerLookup (htmx_delete hostEx storeEx 1).outcome "showMessage"
      = some (Json.obj [("level", Json.str "success"),
          ("message", Json.str "Widget deleted successfully.")]) ∧
    Outcome.triggerLookup (HtmxDeleteView_post hostEx storeEx 1).outcome "rowDeleted"
      = some (Json.obj [("id", Json.str "1")]) ∧
    (HtmxDeleteView_post hostEx storeEx 1).store = [] :=
  ⟨rfl, rfl, rfl, rfl, rfl, rfl, rfl⟩

set_option maxRecDepth 16384 in
/-- C3 (code bug): a valid modal create POST to the admin endpoint
persists the record and sends `modalClosed` and `refreshTable`, but
answers **status 200** with empty body instead of the no-content 204 the
claim and the repository's own `ModalFormCreateTest` documentation state;
the standalone `HtmxModalView.post` does answer 204. -/
theorem C3_admin_modal_status :
    Outcome.toStatus (htmx_modal hostEx cfgEx storeEx reqModalPostEx ObjectId.add).outcome
      = some 200 ∧
    Outcome.toBody (htmx_modal hostEx cfgEx storeEx reqModalPostEx ObjectId.add).outcome
      = some "" ∧
    (htmx_modal hostEx cfgEx storeEx reqModalPostEx ObjectId.add).store.length
      = storeEx.length + 1 ∧
    Outcome.triggerLookup (htmx_modal hostEx cfgEx storeEx reqModalPostEx ObjectId.add).outcome
      "modalClosed" = some (Json.bool true) ∧
    Outcome.triggerLookup (htmx_modal hostEx cfgEx storeEx reqModalPostEx ObjectId.add).outcome
      "refreshTable" = some (Json.bool true) ∧
    Outcome.toStatus (HtmxModalView_post hostEx storeEx reqModalPostEx ObjectId.add).outcome
      = some 204 ∧
    Outcome.toBody (HtmxModalView_post hostEx storeEx reqModalPostEx ObjectId.add).outcome
      = some "" ∧
    Outcome.triggerLookup (HtmxModalView_post hostEx storeEx reqModalPostEx ObjectId.add).outcome
      "modalClosed" = some (Json.bool true) ∧
    Outcome.triggerLookup (HtmxModalView_post hostEx storeEx reqModalPostEx ObjectId.add).outcome
      "tableRefresh" = some (Json.bool true) :=
  ⟨rfl, rfl, rfl, rfl, rfl, rfl, rfl, rfl, rfl⟩

/-- C9 (code bug): on a missing identity the admin delete endpoint raises
`Http404` (the host renders 404, nothing deleted), but the standalone
`HtmxDeleteView.post` fetches with `objects.get`, so the same input
raises an uncaught `DoesNotExist` — a server error, not the 404 the claim
states; in both cases no record is deleted. -/
theorem C9_delete_missing_identity :
    HtmxDeleteView_post hostEx storeEx 99
      = ⟨Outcome.exn "DoesNotExist", storeEx, [OrmOp.load 99]⟩ ∧
    htmx_delete hostEx storeEx 99 = ⟨Outcome.http404, storeEx, [OrmOp.load 99]⟩ :=
  ⟨rfl, rfl⟩
